import Mathlib

/-!
Verification of the exercise-style core of `ql/exercise.hpp` (QuantLib).

The header declares the class hierarchy `Exercise` / `EarlyExercise` /
`AmericanExercise` / `BermudanExercise` / `EuropeanExercise` /
`RebatedExercise` and gives inline bodies for the accessors
`Exercise::date`, `RebatedExercise::rebate` and
`RebatedExercise::rebatePaymentDate`; the constructor bodies live in a
translation unit that is not among the sources, so those constructors are
modelled from the spec (each such definition says so in its doc comment).
External collaborators (`Date`, `Calendar`, `BusinessDayConvention`) are
modelled as capabilities, as the spec describes them.
-/

namespace QuantLib

/-- `Date`: a totally-ordered calendar-date value (external collaborator).
QuantLib dates are serial numbers; we embed them as integers. -/
abbrev Date := Int

/-- `Real`: the numeric type of rebate amounts.  The core only stores and
retrieves rebates, performing no arithmetic on them, so rationals are a
faithful stand-in. -/
abbrev Real := Rat

/-- `Natural`: unsigned integers (`Size` / `Natural` in the source). -/
abbrev Natural := Nat

/-- Modelled from the spec: the distinguished sentinel "no lower bound /
unbounded past" date used by the single-date American constructor. -/
def sentinelDate : Date := 0

/-- `TimeUnit` (external collaborator); only `Days` is used here. -/
inductive TimeUnit where
  | Days
  | Weeks
  | Months
  | Years
deriving DecidableEq

/-- `BusinessDayConvention` (external collaborator). -/
inductive BusinessDayConvention where
  | Following
  | ModifiedFollowing
  | Preceding
  | ModifiedPreceding
  | Unadjusted
deriving DecidableEq

/-- Modelled from the spec: the external calendar capability, reduced to the
single operation this core consumes,
`advance(date, n, unit, businessDayConvention) -> Date`. -/
structure Calendar where
  advance : Date → Natural → TimeUnit → BusinessDayConvention → Date

/-- Modelled from the spec: `NullCalendar`, the all-days-are-business-days
calendar, whose `advance` by `n` days is plain date addition (no
business-day adjustment can occur). -/
def NullCalendar : Calendar :=
  ⟨fun d n _ _ => d + (n : Int)⟩

/-- Failures raised by `QL_REQUIRE` in the source, with the data the error
messages report.  `indexOutOfRange` carries the attempted index and the
upper number printed in the `(0...N)` part of the message. -/
inductive QLError where
  | indexOutOfRange (attemptedIndex : Natural) (reportedUpper : Natural)
  | sizeMismatch (rebatesSize : Natural) (datesSize : Natural)
  | unsupportedOperation
deriving DecidableEq

/-- `Exercise::Type`: the exercise-style tag. -/
inductive Exercise.Type where
  | American
  | Bermudan
  | European
deriving DecidableEq

/-- The `Exercise` base class: a type tag and the protected `dates_`
vector. -/
structure Exercise where
  type_ : Exercise.Type
  dates_ : List Date

/-- `Exercise::type()` — returns the stored tag. -/
def Exercise.type (e : Exercise) : Exercise.Type :=
  e.type_

/-- `Exercise::dates()` — read-only view of the date vector. -/
def Exercise.dates (e : Exercise) : List Date :=
  e.dates_

/-- `Exercise::lastDate()` — `dates_.back()` (undefined on an empty vector;
we default). -/
def Exercise.lastDate (e : Exercise) : Date :=
  e.dates_.getLastD 0

/-- `Exercise::date(Size index)` — `QL_REQUIRE(index < dates_.size(), "date
with index " << index << " does not exist (0..." << dates_.size() << ")")`,
then `dates_[index]`. -/
def Exercise.date (e : Exercise) (index : Natural) : Except QLError Date :=
  if h : index < e.dates_.length then
    .ok (e.dates_.get ⟨index, h⟩)
  else
    .error (.indexOutOfRange index e.dates_.length)

/-- The `EarlyExercise` base class: adds the `payoffAtExpiry_` flag. -/
structure EarlyExercise extends Exercise where
  payoffAtExpiry_ : Bool

/-- `EarlyExercise::payoffAtExpiry()`. -/
def EarlyExercise.payoffAtExpiry (e : EarlyExercise) : Bool :=
  e.payoffAtExpiry_

/-- Modelled from the spec: the two-date `AmericanExercise` constructor
(its body is in a translation unit not among the sources); per spec §4.3 it
produces `dates = [earliestDate, latestDate]` with tag `American`. -/
def AmericanExercise (earliestDate latestDate : Date)
    (payoffAtExpiry : Bool) : EarlyExercise :=
  ⟨⟨.American, [earliestDate, latestDate]⟩, payoffAtExpiry⟩

/-- Modelled from the spec: the single-date `AmericanExercise` constructor
(its body is not among the sources); per spec §4.3 it is the two-date form
with the sentinel "no lower bound" date as earliest date. -/
def AmericanExercise.ofLatest (latestDate : Date)
    (payoffAtExpiry : Bool) : EarlyExercise :=
  AmericanExercise sentinelDate latestDate payoffAtExpiry

/-- Modelled from the spec: the `BermudanExercise` constructor (its body is
not among the sources); per spec §4.4 it stores the supplied sequence
verbatim, with no re-sorting and no de-duplication, tag `Bermudan`. -/
def BermudanExercise (dates : List Date) (payoffAtExpiry : Bool) :
    EarlyExercise :=
  ⟨⟨.Bermudan, dates⟩, payoffAtExpiry⟩

/-- Modelled from the spec: the `EuropeanExercise` constructor (its body is
not among the sources); per spec §4.5 it produces `dates = [date]` with tag
`European`. -/
def EuropeanExercise (date : Date) : Exercise :=
  ⟨.European, [date]⟩

/-- The `RebatedExercise` class: extends `Exercise` (the wrapper carries the
wrapped style's tag and dates as its own `type_` / `dates_`) with the rebate
vector and the settlement parameters. -/
structure RebatedExercise extends Exercise where
  rebates_ : List Real
  rebateSettlementDays_ : Natural
  rebatePaymentCalendar_ : Calendar
  rebatePaymentConvention_ : BusinessDayConvention

/-- Modelled from the spec: the scalar-rebate `RebatedExercise` constructor
(its body is not among the sources); per spec §4.6 it copies the wrapped
style's tag and dates and broadcasts the scalar rebate to every exercise
date. -/
def RebatedExercise.ofScalar (exercise : Exercise) (rebate : Real)
    (rebateSettlementDays : Natural) (rebatePaymentCalendar : Calendar)
    (rebatePaymentConvention : BusinessDayConvention) : RebatedExercise :=
  ⟨exercise, List.replicate exercise.dates_.length rebate,
   rebateSettlementDays, rebatePaymentCalendar, rebatePaymentConvention⟩

/-- Modelled from the spec: the vector-rebate `RebatedExercise` constructor
(its body is not among the sources); per spec §4.6 it copies the wrapped
style's tag and dates, requires `rebates.size() == exercise.dates().size()`
and fails with the size-mismatch error otherwise. -/
def RebatedExercise.ofVector (exercise : Exercise) (rebates : List Real)
    (rebateSettlementDays : Natural) (rebatePaymentCalendar : Calendar)
    (rebatePaymentConvention : BusinessDayConvention) :
    Except QLError RebatedExercise :=
  if rebates.length = exercise.dates_.length then
    .ok ⟨exercise, rebates, rebateSettlementDays, rebatePaymentCalendar,
         rebatePaymentConvention⟩
  else
    .error (.sizeMismatch rebates.length exercise.dates_.length)

/-- `RebatedExercise::rebates()` — read-only view of the rebate vector. -/
def RebatedExercise.rebates (re : RebatedExercise) : List Real :=
  re.rebates_

/-- The value `rebates_.size() - 1` computed in `size_t` arithmetic, as the
error message of `RebatedExercise::rebate` prints it (wraps to `2^64 - 1`
when the vector is empty). -/
def sizeSubOne (n : Natural) : Natural :=
  (n + (2 ^ 64 - 1)) % 2 ^ 64

/-- `RebatedExercise::rebate(Size index)` — `QL_REQUIRE(index <
rebates_.size(), "rebate with index " << index << " does not exist (0..."
<< (rebates_.size()-1) << ")")`, then `rebates_[index]`. -/
def RebatedExercise.rebate (re : RebatedExercise) (index : Natural) :
    Except QLError Real :=
  if h : index < re.rebates_.length then
    .ok (re.rebates_.get ⟨index, h⟩)
  else
    .error (.indexOutOfRange index (sizeSubOne re.rebates_.length))

/-- `RebatedExercise::rebatePaymentDate(Size index)` — `QL_REQUIRE(type_ ==
European || type_ == Bermudan, ...)`, then
`rebatePaymentCalendar_.advance(dates_[index], rebateSettlementDays_, Days,
rebatePaymentConvention_)`.  The source indexes `dates_` with the unchecked
`operator[]` — no bounds check is performed; we model the unchecked read as
a defaulted lookup. -/
def RebatedExercise.rebatePaymentDate (re : RebatedExercise)
    (index : Natural) : Except QLError Date :=
  if re.type_ = .European ∨ re.type_ = .Bermudan then
    .ok (re.rebatePaymentCalendar_.advance (re.dates_.getD index 0)
          re.rebateSettlementDays_ .Days re.rebatePaymentConvention_)
  else
    .error .unsupportedOperation

/-! ## Theorems -/

/-- C2: for every exercise style `e` and index `i`, `dateAt(i)` returns
`dates()[i]` when `i < dates().size()`, and fails with an index-out-of-range
error reporting the attempted index and the exclusive upper bound of the
valid range `[0, size)` otherwise. -/
theorem dateAt_spec (e : Exercise) (index : Natural) :
    (∀ h : index < e.dates.length,
       e.date index = .ok (e.dates.get ⟨index, h⟩)) ∧
    (e.dates.length ≤ index →
       e.date index = .error (.indexOutOfRange index e.dates.length)) := by
  constructor
  · intro h
    simp [Exercise.date, Exercise.dates] at h ⊢
    simp [dif_pos h]
  · intro h
    have h' : ¬ index < e.dates_.length := by
      simpa [Exercise.dates] using Nat.not_lt.mpr h
    simp [Exercise.date, Exercise.dates, dif_neg h']

/-- Witness for C2: a concrete European exercise with one date; index 0 is
valid and returns the date, index 1 is out of range and reports `(0...1)`. -/
theorem dateAt_spec_witness :
    (EuropeanExercise 45107).date 0 = .ok 45107 ∧
    (EuropeanExercise 45107).date 1 = .error (.indexOutOfRange 1 1) := by
  refine ⟨?_, ?_⟩
  · have h := (dateAt_spec (EuropeanExercise 45107) 0).1 (by decide)
    simpa [EuropeanExercise, Exercise.dates] using h
  · have h := (dateAt_spec (EuropeanExercise 45107) 1).2 (by decide)
    simpa [EuropeanExercise, Exercise.dates] using h

/-- C6: `BermudanExercise(ds)` stores the supplied date sequence verbatim —
no re-sorting, no de-duplication — for every input sequence `ds`, unsorted
sequences and sequences with duplicates included. -/
theorem bermudan_dates_verbatim (ds : List Date) (payoffAtExpiry : Bool) :
    (BermudanExercise ds payoffAtExpiry).toExercise.dates = ds :=
  rfl

/-- C7: `AmericanExercise(d1, d2).dates() = [d1, d2]`, and the single-date
constructor produces `[sentinel, d2]` with the distinguished "no lower
bound" sentinel date. -/
theorem american_dates (d1 d2 : Date) (payoffAtExpiry : Bool) :
    (AmericanExercise d1 d2 payoffAtExpiry).toExercise.dates = [d1, d2] ∧
    (AmericanExercise.ofLatest d2 payoffAtExpiry).toExercise.dates =
      [sentinelDate, d2] :=
  ⟨rfl, rfl⟩

/-- C8: `EuropeanExercise(d).dates() = [d]` and its kind is `European`. -/
theorem european_dates_and_kind (d : Date) :
    (EuropeanExercise d).dates = [d] ∧
    (EuropeanExercise d).type = .European :=
  ⟨rfl, rfl⟩

/-- C3: the scalar-rebate constructor always succeeds and broadcasts the
scalar to every date: the rebate vector has the length of the wrapped
style's date vector and every element equals the scalar. -/
theorem scalar_rebate_broadcast (e : Exercise) (r : Real) (days : Natural)
    (cal : Calendar) (conv : BusinessDayConvention) :
    (RebatedExercise.ofScalar e r days cal conv).rebates.length =
      e.dates.length ∧
    ∀ x ∈ (RebatedExercise.ofScalar e r days cal conv).rebates, x = r := by
  constructor
  · simp [RebatedExercise.ofScalar, RebatedExercise.rebates, Exercise.dates]
  · intro x hx
    exact List.eq_of_mem_replicate hx

/-- Witness for C3: broadcasting the scalar 50 over a two-date Bermudan
style yields a rebate vector of length 2 whose member 50 is (trivially)
equal to 50; both facts come from the broadcast theorem at this input. -/
theorem scalar_rebate_broadcast_witness :
    (RebatedExercise.ofScalar (BermudanExercise [45352, 45444] false).toExercise
        50 0 NullCalendar .Following).rebates.length = 2 ∧
    (RebatedExercise.ofScalar (BermudanExercise [45352, 45444] false).toExercise
        50 0 NullCalendar .Following).rebates.getD 0 0 = 50 := by
  have h := scalar_rebate_broadcast
    (BermudanExercise [45352, 45444] false).toExercise 50 0 NullCalendar .Following
  refine ⟨h.1.trans (by decide), h.2 _ ?_⟩
  decide

/-- C4: the vector-rebate constructor fails with the size-mismatch error
exactly when the rebate vector's length differs from the wrapped style's
date count; on success the stored rebates are the supplied vector. -/
theorem vector_rebate_ctor (e : Exercise) (rebates : List Real)
    (days : Natural) (cal : Calendar) (conv : BusinessDayConvention) :
    (rebates.length ≠ e.dates.length →
       RebatedExercise.ofVector e rebates days cal conv =
         .error (.sizeMismatch rebates.length e.dates.length)) ∧
    (rebates.length = e.dates.length →
       ∃ re, RebatedExercise.ofVector e rebates days cal conv = .ok re ∧
         re.rebates = rebates) := by
  constructor
  · intro h
    have h' : ¬ rebates.length = e.dates_.length := h
    simp [RebatedExercise.ofVector, Exercise.dates, if_neg h']
  · intro h
    have h' : rebates.length = e.dates_.length := h
    refine ⟨⟨e, rebates, days, cal, conv⟩, ?_, rfl⟩
    simp [RebatedExercise.ofVector, if_pos h']

/-- Witness for C4: against a one-date European style, a two-element rebate
vector is rejected with the size-mismatch error and a one-element vector is
accepted with the supplied rebates stored. -/
theorem vector_rebate_ctor_witness :
    RebatedExercise.ofVector (EuropeanExercise 45463) [10, 20] 0 NullCalendar
        .Following = .error (.sizeMismatch 2 1) ∧
    ∃ re, RebatedExercise.ofVector (EuropeanExercise 45463) [10] 0 NullCalendar
        .Following = .ok re ∧ re.rebates = [10] := by
  constructor
  · have h := (vector_rebate_ctor (EuropeanExercise 45463) [10, 20] 0
      NullCalendar .Following).1 (by decide)
    simpa [EuropeanExercise, Exercise.dates] using h
  · exact (vector_rebate_ctor (EuropeanExercise 45463) [10] 0
      NullCalendar .Following).2 (by decide)

/-- C5: `rebateAt(i)` returns `rebates()[i]` for `i < rebates().size()`;
otherwise it fails with an index-out-of-range error whose message reports
the attempted index and `rebates().size() - 1` (computed in `size_t`
arithmetic; for a non-empty vector of realizable size this is the inclusive
upper bound `size - 1` of the range `[0, size-1]`). -/
theorem rebateAt_spec (re : RebatedExercise) (index : Natural) :
    (∀ h : index < re.rebates.length,
       re.rebate index = .ok (re.rebates.get ⟨index, h⟩)) ∧
    (re.rebates.length ≤ index →
       re.rebate index =
         .error (.indexOutOfRange index (sizeSubOne re.rebates.length))) ∧
    (0 < re.rebates.length → re.rebates.length < 2 ^ 64 →
       re.rebates.length ≤ index →
       re.rebate index =
         .error (.indexOutOfRange index (re.rebates.length - 1))) := by
  refine ⟨?_, ?_, ?_⟩
  · intro h
    simp [RebatedExercise.rebate, RebatedExercise.rebates] at h ⊢
    simp [dif_pos h]
  · intro h
    have h' : ¬ index < re.rebates_.length := by
      simpa [RebatedExercise.rebates] using Nat.not_lt.mpr h
    simp [RebatedExercise.rebate, RebatedExercise.rebates, dif_neg h']
  · intro hpos hsize h
    have hpos' : 0 < re.rebates_.length := hpos
    have hsize' : re.rebates_.length < 2 ^ 64 := hsize
    have h' : ¬ index < re.rebates_.length := Nat.not_lt.mpr h
    have hw : sizeSubOne re.rebates_.length = re.rebates_.length - 1 := by
      show (re.rebates_.length + (2 ^ 64 - 1)) % 2 ^ 64 = re.rebates_.length - 1
      omega
    simp [RebatedExercise.rebate, RebatedExercise.rebates, dif_neg h', hw]

/-- Witness for C5: a schedule with two rebates; index 0 is valid and reads
the stored rebate, index 5 is out of range and the error reports the
inclusive bound 1 = 2 - 1. -/
theorem rebateAt_spec_witness :
    (RebatedExercise.ofScalar (BermudanExercise [45352, 45444] false).toExercise
        50 0 NullCalendar .Following).rebate 0 = .ok 50 ∧
    (RebatedExercise.ofScalar (BermudanExercise [45352, 45444] false).toExercise
        50 0 NullCalendar .Following).rebate 5 =
      .error (.indexOutOfRange 5 1) := by
  constructor
  · have h := (rebateAt_spec (RebatedExercise.ofScalar
      (BermudanExercise [45352, 45444] false).toExercise 50 0 NullCalendar
      .Following) 0).1 (by decide)
    simpa [RebatedExercise.ofScalar, RebatedExercise.rebates,
      BermudanExercise, Exercise.dates] using h
  · have h := (rebateAt_spec (RebatedExercise.ofScalar
      (BermudanExercise [45352, 45444] false).toExercise 50 0 NullCalendar
      .Following) 5).2.2 (by decide) (by decide) (by decide)
    simpa [RebatedExercise.ofScalar, RebatedExercise.rebates,
      BermudanExercise, Exercise.dates] using h

/-- C9: the rebated wrapper exposes the wrapped style's kind and dates
unchanged — both for the scalar-rebate constructor and for every successful
vector-rebate construction. -/
theorem rebated_wrapper_delegates (e : Exercise) (r : Real) (rs : List Real)
    (days : Natural) (cal : Calendar) (conv : BusinessDayConvention) :
    ((RebatedExercise.ofScalar e r days cal conv).toExercise.type = e.type ∧
     (RebatedExercise.ofScalar e r days cal conv).toExercise.dates =
       e.dates) ∧
    (∀ re, RebatedExercise.ofVector e rs days cal conv = .ok re →
       re.toExercise.type = e.type ∧ re.toExercise.dates = e.dates) := by
  refine ⟨⟨rfl, rfl⟩, ?_⟩
  intro re hre
  by_cases h : rs.length = e.dates_.length
  · simp [RebatedExercise.ofVector, if_pos h] at hre
    subst hre
    exact ⟨rfl, rfl⟩
  · simp [RebatedExercise.ofVector, if_neg h] at hre

/-- Witness for C9: a concrete schedule over a European style; the scalar
wrapper keeps the kind, and the unique successful vector construction keeps
both kind and dates. -/
theorem rebated_wrapper_delegates_witness :
    (RebatedExercise.ofScalar (EuropeanExercise 45463) 50 0 NullCalendar
        .Following).toExercise.type = (EuropeanExercise 45463).type ∧
    ((⟨EuropeanExercise 45463, [10], 0, NullCalendar, .Following⟩ :
        RebatedExercise).toExercise.type = (EuropeanExercise 45463).type ∧
     (⟨EuropeanExercise 45463, [10], 0, NullCalendar, .Following⟩ :
        RebatedExercise).toExercise.dates = (EuropeanExercise 45463).dates) := by
  refine ⟨(rebated_wrapper_delegates (EuropeanExercise 45463) 50 [10] 0
    NullCalendar .Following).1.1, ?_⟩
  exact (rebated_wrapper_delegates (EuropeanExercise 45463) 50 [10] 0
    NullCalendar .Following).2 _ rfl

/-- C1: `rebatePaymentDateAt(index)` fails with the unsupported-operation
error when the wrapped style is American; when the style is European or
Bermudan and `index` is a valid position (witnessed by `dateAt(index)`
succeeding with date `d`), it returns
`calendar.advance(d, settlementDays, Days, convention)`. -/
theorem rebatePaymentDateAt_spec (re : RebatedExercise) (index : Natural) :
    (re.toExercise.type = .American →
       re.rebatePaymentDate index = .error .unsupportedOperation) ∧
    ((re.toExercise.type = .European ∨ re.toExercise.type = .Bermudan) →
       ∀ d : Date, re.toExercise.date index = .ok d →
         re.rebatePaymentDate index =
           .ok (re.rebatePaymentCalendar_.advance d re.rebateSettlementDays_
                 .Days re.rebatePaymentConvention_)) := by
  constructor
  · intro h
    have h' : re.type_ = .American := h
    have hcond : ¬ (re.type_ = .European ∨ re.type_ = .Bermudan) := by
      simp [h']
    simp [RebatedExercise.rebatePaymentDate, if_neg hcond]
  · intro ht d hd
    have ht' : re.type_ = .European ∨ re.type_ = .Bermudan := ht
    by_cases hlen : index < re.toExercise.dates_.length
    · have hget : re.toExercise.dates_.get ⟨index, hlen⟩ = d := by
        have h := hd
        simp [Exercise.date, dif_pos hlen] at h
        exact h
      have hgetD : re.toExercise.dates_[index]?.getD 0 = d := by
        rw [List.getElem?_eq_getElem hlen]
        simpa [List.get_eq_getElem] using hget
      simp [RebatedExercise.rebatePaymentDate, if_pos ht', hgetD]
    · simp [Exercise.date, dif_neg hlen] at hd

/-- Witness for C1: a European schedule with 2 settlement days on the
all-business-days calendar pays the rebate two days after the exercise
date; an American schedule rejects the query. -/
theorem rebatePaymentDateAt_spec_witness :
    (RebatedExercise.ofScalar (EuropeanExercise 45463) 100 2 NullCalendar
        .Following).rebatePaymentDate 0 = .ok 45465 ∧
    (RebatedExercise.ofScalar (AmericanExercise 45292 45463 false).toExercise
        50 0 NullCalendar .Following).rebatePaymentDate 0 =
      .error .unsupportedOperation := by
  constructor
  · have h := (rebatePaymentDateAt_spec (RebatedExercise.ofScalar
      (EuropeanExercise 45463) 100 2 NullCalendar .Following) 0).2
      (Or.inl rfl) 45463 rfl
    simpa [RebatedExercise.ofScalar, NullCalendar] using h
  · exact (rebatePaymentDateAt_spec (RebatedExercise.ofScalar
      (AmericanExercise 45292 45463 false).toExercise 50 0 NullCalendar
      .Following) 0).1 rfl

/-- C10: `rebatePaymentDate` performs no bounds check on its index: it never
fails with an index-out-of-range error, and for a European or Bermudan
schedule queried past the end of the date vector it still succeeds (the
source indexes `dates_` with the unchecked `operator[]`), unlike `dateAt`
and `rebateAt`. -/
theorem rebatePaymentDate_no_bounds_check (re : RebatedExercise)
    (index : Natural) :
    (∀ k n : Natural,
       re.rebatePaymentDate index ≠ .error (.indexOutOfRange k n)) ∧
    ((re.toExercise.type = .European ∨ re.toExercise.type = .Bermudan) →
       re.toExercise.dates.length ≤ index →
       (re.rebatePaymentDate index).isOk = true) := by
  constructor
  · intro k n
    unfold RebatedExercise.rebatePaymentDate
    split
    · simp
    · simp
  · intro ht _
    have ht' : re.type_ = .European ∨ re.type_ = .Bermudan := ht
    simp [RebatedExercise.rebatePaymentDate, if_pos ht', Except.isOk,
      Except.toBool]

/-- Witness for C10: a one-date European schedule queried at index 5 does
not raise an index error and still returns a date. -/
theorem rebatePaymentDate_no_bounds_check_witness :
    (RebatedExercise.ofScalar (EuropeanExercise 45463) 50 0 NullCalendar
        .Following).rebatePaymentDate 5 ≠ .error (.indexOutOfRange 5 1) ∧
    ((RebatedExercise.ofScalar (EuropeanExercise 45463) 50 0 NullCalendar
        .Following).rebatePaymentDate 5).isOk = true := by
  refine ⟨(rebatePaymentDate_no_bounds_check (RebatedExercise.ofScalar
    (EuropeanExercise 45463) 50 0 NullCalendar .Following) 5).1 5 1,
    (rebatePaymentDate_no_bounds_check (RebatedExercise.ofScalar
    (EuropeanExercise 45463) 50 0 NullCalendar .Following) 5).2
    (Or.inl rfl) (by decide)⟩

end QuantLib
